import Mathlib

/-!
Shallow embedding of the Scrape-to-Download Task Pipeline
(ScheduledTaskService / ScraperService / DownloadService / BrowserService /
Utils) of the WP automation repository.

Strings are modelled as `List Char` (`"…".data`).  JavaScript regular
expressions used by the source are translated into explicit leftmost-first,
greedy scanning functions.  The file system is a partial map from paths to
file sizes; the network, the browser and the persistence sink are an
environment record of fixed outcomes consulted by the embedded operations.
-/

namespace WP

/-- The characters of a string; abbreviation used throughout. -/
def chars (s : String) : List Char := s.data

/-! ### Generic string (List Char) helpers -/

/-- Split at the first occurrence of `c`: returns the part before and the
part after the separator, or `none` when `c` does not occur. -/
def splitFirst (c : Char) : List Char → Option (List Char × List Char)
  | [] => none
  | a :: rest =>
    if a = c then some ([], rest)
    else (splitFirst c rest).map (fun p => (a :: p.1, p.2))

/-- JavaScript `String.prototype.split(sep)` for a one-character separator:
always returns at least one (possibly empty) part. -/
def splitOnChar (c : Char) : List Char → List (List Char)
  | [] => [[]]
  | a :: rest =>
    let r := splitOnChar c rest
    if a = c then [] :: r
    else
      match r with
      | [] => [[a]]
      | h :: t => (a :: h) :: t

/-- Embeds `parts[parts.length - 1]` on a JavaScript array (never empty here). -/
def lastPart : List (List Char) → List Char
  | [] => []
  | [x] => x
  | _ :: y :: rest => lastPart (y :: rest)

def stripLeadingSlash : List Char → List Char
  | '/' :: rest => rest
  | u => u

def stripTrailingSlash (u : List Char) : List Char :=
  match u.getLast? with
  | some '/' => u.dropLast
  | _ => u

/-- Embeds `url.replace(/^\/|\/$/g, '')`: removes one leading and one trailing
slash (the two anchored alternatives match at most once each). -/
def stripSlashes (u : List Char) : List Char :=
  stripTrailingSlash (stripLeadingSlash u)

/-- Remove the first occurrence of character `c` (JS `replace('c', '')`). -/
def removeFirstChar (c : Char) : List Char → List Char
  | [] => []
  | a :: rest => if a = c then rest else a :: removeFirstChar c rest

/-- Remove the first (leftmost) occurrence of the substring `pat`
(JS `replace(/pat/, '')` for a literal pattern). -/
def removeFirstSub (pat : List Char) : List Char → List Char
  | [] => []
  | a :: rest =>
    if pat.isPrefixOf (a :: rest) then (a :: rest).drop pat.length
    else a :: removeFirstSub pat rest

/-- Does `pat` occur as a contiguous substring? -/
def containsSub (pat : List Char) : List Char → Bool
  | [] => pat.isPrefixOf []
  | a :: rest => pat.isPrefixOf (a :: rest) || containsSub pat rest

/-- JS `replace` with an end-anchored literal pattern: strip the suffix
when present. -/
def stripTrailing (suf l : List Char) : List Char :=
  if suf.isSuffixOf l then l.take (l.length - suf.length) else l

/-! ### Utils.extractVersionFromTitle (src/services/utils.js:56-80)

The source scans the title with the regular expression
`/v\d+(\.\d+){0,3}/` (leftmost-first, greedy) and removes the first
occurrence of `/ v\d+(\.\d+){0,3}/` (note the leading space) to produce the
clean title. -/

/-- Greedy run of decimal digits at the head: `(matched, rest)`. -/
def takeDigits (l : List Char) : List Char × List Char :=
  (l.takeWhile Char.isDigit, l.dropWhile Char.isDigit)

/-- Greedily consume up to `n` groups matching `\.\d+`. -/
def dotGroups : Nat → List Char → List Char × List Char
  | 0, l => ([], l)
  | n + 1, l =>
    match l with
    | '.' :: rest =>
      let d := takeDigits rest
      if d.1 = [] then ([], l)
      else
        let g := dotGroups n d.2
        ('.' :: d.1 ++ g.1, g.2)
    | _ => ([], l)

/-- Match the regex `v\d+(\.\d+){0,3}` anchored at the head of the list:
`(matched token, rest)` on success. -/
def versionMatchAt (l : List Char) : Option (List Char × List Char) :=
  match l with
  | 'v' :: rest =>
    if (takeDigits rest).1 = [] then none
    else
      some ('v' :: (takeDigits rest).1 ++ (dotGroups 3 (takeDigits rest).2).1,
        (dotGroups 3 (takeDigits rest).2).2)
  | _ => none

/-- Leftmost match of `v\d+(\.\d+){0,3}`: `(before, matched, after)`. -/
def findVersion : List Char → Option (List Char × List Char × List Char)
  | [] => none
  | a :: rest =>
    match versionMatchAt (a :: rest) with
    | some m => some ([], m.1, m.2)
    | none => (findVersion rest).map (fun p => (a :: p.1, p.2.1, p.2.2))

/-- Match `' '` followed by a version token, anchored at the head. -/
def spaceVersionMatchAt (l : List Char) : Option (List Char × List Char) :=
  match l with
  | ' ' :: rest => (versionMatchAt rest).map (fun m => (' ' :: m.1, m.2))
  | _ => none

/-- Leftmost match of `/ v\d+(\.\d+){0,3}/`. -/
def findSpaceVersion : List Char → Option (List Char × List Char × List Char)
  | [] => none
  | a :: rest =>
    match spaceVersionMatchAt (a :: rest) with
    | some m => some ([], m.1, m.2)
    | none => (findSpaceVersion rest).map (fun p => (a :: p.1, p.2.1, p.2.2))

/-- Result record of `Utils.extractVersionFromTitle`. -/
structure VersionInfo where
  version : List Char
  cleanTitle : List Char
  hasVersion : Bool
deriving DecidableEq, Repr

namespace Utils

/-- Embeds `Utils.extractVersionFromTitle` (src/services/utils.js:56-80). -/
def extractVersionFromTitle (title : List Char) : VersionInfo :=
  if title.any Char.isDigit then
    match findVersion title with
    | none => { version := [], cleanTitle := title, hasVersion := false }
    | some m =>
      let version := removeFirstChar 'v' m.2.1
      let clean :=
        match findSpaceVersion title with
        | none => title
        | some p => p.1 ++ p.2.2
      { version := version, cleanTitle := clean, hasVersion := true }
  else
    { version := [], cleanTitle := title, hasVersion := false }

end Utils

/-! ### Utils.extractUrlInfo (src/services/utils.js:87-105)

`new URL(url)` of the WHATWG URL standard is an external library; it is
modelled here only as far as the source consumes it: construction fails on
strings without a leading `scheme:` (our validity test), and
`searchParams.get('product_id')` reads the query string between the first
`?` and a `#` without percent-decoding.  The slug computation of the source
operates on the raw `url` string itself, not on the parsed path. -/

/-- Modelled validity test for `new URL(url)`: a non-empty all-letter
scheme followed by a colon. -/
def urlValid (u : List Char) : Bool :=
  match splitFirst ':' u with
  | some p => decide (p.1 ≠ []) && p.1.all Char.isAlpha
  | none => false

/-- The query string of a URL: after the first `?`, before any `#`. -/
def queryOf (url : List Char) : List Char :=
  match splitFirst '?' url with
  | none => []
  | some p => p.2.takeWhile (fun c => c ≠ '#')

/-- One `name=value` pair of a query string. -/
def paramPair (p : List Char) : List Char × List Char :=
  match splitFirst '=' p with
  | none => (p, [])
  | some nv => nv

/-- Embeds `parsedUrl.searchParams.get(name)` (modelled, no percent-decoding). -/
def getQueryParam (name url : List Char) : Option (List Char) :=
  (((splitOnChar '&' (queryOf url)).map paramPair).find?
    (fun pr => pr.1 == name)).map (fun pr => pr.2)

/-- Result record of `Utils.extractUrlInfo`. -/
structure UrlInfo where
  slug : List Char
  productId : List Char
deriving DecidableEq, Repr

namespace Utils

/-- Embeds `Utils.extractUrlInfo` (src/services/utils.js:87-105).  On a URL the
parser rejects, the catch block leaves the empty defaults. -/
def extractUrlInfo (url : List Char) : UrlInfo :=
  if urlValid url then
    let cleanUrl := stripSlashes url
    let parts := splitOnChar '/' cleanUrl
    { slug := lastPart parts
      productId := (getQueryParam (chars "product_id") url).getD [] }
  else
    { slug := [], productId := [] }

/-- Embeds `Utils.generateFilename` (src/services/utils.js:112-116): strip an
end-anchored `-download`, then remove the first occurrence of the pattern
`download-` (the source regex is not anchored), then append `.zip`. -/
def generateFilename (slug : List Char) : List Char :=
  removeFirstSub (chars "download-") (stripTrailing (chars "-download") slug)
    ++ chars ".zip"

end Utils

example :
    Utils.extractVersionFromTitle (chars "Plugin X v2.3.1") =
      ⟨chars "2.3.1", chars "Plugin X", true⟩ := by decide

example :
    Utils.extractVersionFromTitle (chars "v2.3.1 Plugin") =
      ⟨chars "2.3.1", chars "v2.3.1 Plugin", true⟩ := by decide

example :
    Utils.extractVersionFromTitle (chars "Plugin 2024 Edition") =
      ⟨[], chars "Plugin 2024 Edition", false⟩ := by decide

example :
    Utils.extractUrlInfo (chars "https://site/slug-download?product_id=42") =
      ⟨chars "slug-download?product_id=42", chars "42"⟩ := by decide

example : Utils.extractUrlInfo (chars "") = ⟨[], []⟩ := by decide

example : Utils.generateFilename (chars "slug-download") = chars "slug.zip" := by
  decide

example : Utils.generateFilename (chars "x-download-y") = chars "x-y.zip" := by
  decide

example : Utils.generateFilename (chars "download-slug") = chars "slug.zip" := by
  decide

/-! ### Data model: raw rows and entries

`ScraperService._extractEntriesFromPage` (src/services/scraperService.js:
132-165) produces raw rows with the five fields below; rows missing a
required element are skipped inside the page and never surface, so the
modelled rows are total records.  `_processEntries` (172-205) enriches each
row and retains only rows with a parsed version. -/

structure RawRow where
  id : List Char
  productName : List Char
  date : List Char
  downloadLink : List Char
  productURL : List Char
deriving DecidableEq, Repr

structure Entry where
  id : List Char
  productName : List Char
  date : List Char
  downloadLink : List Char
  productURL : List Char
  version : List Char
  name : List Char
  slug : List Char
  productId : List Char
  filename : List Char
  filePath : List Char
  fileUrl : List Char
  fileSize : Nat
  downloadedAt : Nat
  error : List Char
deriving DecidableEq, Repr

/-- The fields of an entry that identify it across the download phase:
everything `_downloadSingleFile` and the failure path leave untouched. -/
structure EntryCore where
  id : List Char
  productName : List Char
  date : List Char
  downloadLink : List Char
  productURL : List Char
  version : List Char
  name : List Char
  slug : List Char
  productId : List Char
deriving DecidableEq, Repr

def Entry.core (e : Entry) : EntryCore :=
  ⟨e.id, e.productName, e.date, e.downloadLink, e.productURL,
    e.version, e.name, e.slug, e.productId⟩

/-- The per-row body of `ScraperService._processEntries`
(src/services/scraperService.js:175-197). -/
def processRow (r : RawRow) : Entry :=
  let vi := Utils.extractVersionFromTitle r.productName
  let ui := Utils.extractUrlInfo r.productURL
  { id := r.id, productName := r.productName, date := r.date,
    downloadLink := r.downloadLink, productURL := r.productURL,
    version := vi.version, name := vi.cleanTitle,
    slug := ui.slug, productId := ui.productId,
    filename := [], filePath := [], fileUrl := [],
    fileSize := 0, downloadedAt := 0, error := [] }

/-- Embeds `ScraperService._processEntries` (src/services/scraperService.js:
172-205): enrich every row, push only rows whose title parsed a version. -/
def processEntries : List RawRow → List Entry
  | [] => []
  | r :: rest =>
    if (Utils.extractVersionFromTitle r.productName).hasVersion then
      processRow r :: processEntries rest
    else
      processEntries rest

/-! ### File system and download service (src/services/downloadService.js,
given as src/unnamed/part_001)

The file system is a partial map from paths to sizes.  The HTTP layer
(axios) is an environment outcome per request: a network-level error, or a
response with a status and a body size; axios itself rejects statuses
outside 200-299, and the service additionally rejects any non-200 status.
Wall-clock timestamps are abstracted by the entry index. -/

def FS : Type := List Char → Option Nat

def FS.write (fs : FS) (p : List Char) (n : Nat) : FS :=
  fun q => if q = p then some n else fs q

def FS.erase (fs : FS) (p : List Char) : FS :=
  fun q => if q = p then none else fs q

/-- Embeds `Utils.touch` (src/services/utils.js:24-36): create an empty file when
absent, otherwise only update the timestamps (size kept). -/
def FS.touch (fs : FS) (p : List Char) : FS :=
  match fs p with
  | none => fs.write p 0
  | some _ => fs

inductive HttpOutcome where
  | netErr (msg : List Char)
  | resp (status : Nat) (bytes : Nat)
deriving DecidableEq, Repr

structure DLStats where
  successful : Nat
  failed : Nat
  total : Nat
deriving DecidableEq, Repr

structure DLResult where
  successful : List Entry
  failed : List Entry
deriving DecidableEq, Repr

def downloadsDir : List Char := chars "./public/downloads/"

/-- Embeds `path.join(dir, f)` — separator normalisation of Node's path module is
not depended on by any claim and is elided. -/
def pathJoin (dir f : List Char) : List Char := dir ++ f

def Entry.targetPath (e : Entry) : List Char :=
  pathJoin downloadsDir (Utils.generateFilename e.slug)

def natChars (n : Nat) : List Char := (Nat.repr n).data

/-- Embeds `Utils.validateRequiredFields` missing-field list for
`['downloadLink', 'slug']`. -/
def missingFields (e : Entry) : List (List Char) :=
  (if e.downloadLink = [] then [chars "downloadLink"] else []) ++
    (if e.slug = [] then [chars "slug"] else [])

def joinCommaSep : List (List Char) → List Char
  | [] => []
  | [x] => x
  | x :: rest => x ++ chars ", " ++ joinCommaSep rest

/-- Steps 4-7 of `DownloadService._downloadSingleFile`
(src/unnamed/part_001:90-125): the axios request (axios itself rejects a
status outside 200-299), the service's own non-200 check, the streamed
write, and the empty-file check. -/
def downloadFetch (e : Entry) : HttpOutcome → Nat → FS →
    Except (List Char) Entry × FS
  | HttpOutcome.netErr m, _, fs1 => (Except.error m, fs1)
  | HttpOutcome.resp st b, now, fs1 =>
    if st < 200 ∨ 300 ≤ st then
      (Except.error (chars "Request failed with status code " ++
        natChars st), fs1)
    else if st ≠ 200 then
      (Except.error (chars "HTTP " ++ natChars st), fs1)
    else if b = 0 then
      (Except.error (chars "Downloaded file is empty"),
        fs1.write e.targetPath b)
    else
      (Except.ok { e with
        filename := Utils.generateFilename e.slug
        filePath := e.targetPath
        fileUrl := pathJoin (chars "/downloads/")
          (Utils.generateFilename e.slug)
        fileSize := b
        downloadedAt := now }, fs1.write e.targetPath b)

/-- The try-block of `DownloadService._downloadSingleFile`
(src/unnamed/part_001:77-125): require `downloadLink` and `slug`, touch
the target file, then fetch into it. -/
def downloadBody (e : Entry) (outcome : HttpOutcome) (now : Nat) (fs : FS) :
    Except (List Char) Entry × FS :=
  if missingFields e ≠ [] then
    (Except.error (chars "Missing required fields: " ++
      joinCommaSep (missingFields e)), fs)
  else
    downloadFetch e outcome now (fs.touch e.targetPath)

/-- Catch-block message wrapper of `_downloadSingleFile`
(src/unnamed/part_001:140). -/
def wrapFail (e : Entry) (m : List Char) : List Char :=
  chars "Download failed for " ++ e.productName ++ chars ": " ++ m

/-- Embeds `DownloadService._downloadSingleFile` (src/unnamed/part_001:77-142):
the try-block above plus the catch block that deletes the partially
written file when it exists and rethrows a wrapped error. -/
def downloadOne (e : Entry) (outcome : HttpOutcome) (now : Nat) (fs : FS) :
    Except (List Char) Entry × FS :=
  match downloadBody e outcome now fs with
  | (Except.ok d, fs1) => (Except.ok d, fs1)
  | (Except.error m, fs1) =>
    (Except.error (wrapFail e m),
      match fs1 e.targetPath with
      | none => fs1
      | some _ => fs1.erase e.targetPath)

/-- The entry loop of `DownloadService.downloadFiles`
(src/unnamed/part_001:44-60); `i` is the running index (also standing in
for the wall clock of `downloadedAt`). -/
def downloadGo (outcomes : Nat → HttpOutcome) :
    Nat → List Entry → FS → List Entry × List Entry × FS
  | _, [], fs => ([], [], fs)
  | i, e :: rest, fs =>
    match downloadOne e (outcomes i) i fs with
    | (Except.ok d, fs1) =>
      let r := downloadGo outcomes (i + 1) rest fs1
      (d :: r.1, r.2.1, r.2.2)
    | (Except.error m, fs1) =>
      let r := downloadGo outcomes (i + 1) rest fs1
      (r.1, { e with error := m } :: r.2.1, r.2.2)

/-- Embeds `DownloadService.downloadFiles` (src/unnamed/part_001:27-69).  The
stats counters are incremented once per classified entry in the loop, so
on completion they equal the lengths recorded here; `cookies` only feeds
request headers, whose effect lives in `outcomes`. -/
def downloadFiles (entries : List Entry)
    (_cookies : List (List Char × List Char))
    (outcomes : Nat → HttpOutcome) (fs : FS) : DLResult × FS × DLStats :=
  let fs1 := fs.touch (pathJoin downloadsDir (chars "index.html"))
  let r := downloadGo outcomes 0 entries fs1
  (⟨r.1, r.2.1⟩, r.2.2,
    ⟨r.1.length, r.2.1.length, entries.length⟩)

/-! ### Browser and scraper session (src/unnamed/part_002:688-947 and
src/services/scraperService.js)

The environment fixes the outcome of every external operation: puppeteer
launch, form login, changelog navigation, the rows rendered on the page,
teardown of the page and of the browser, the cookie jar, the per-entry
download outcomes and the persistence sink. -/

structure ScraperState where
  browserOpen : Bool
  pageOpen : Bool
  isLoggedIn : Bool
deriving DecidableEq, Repr

def ScraperState.closed : ScraperState := ⟨false, false, false⟩

structure Env where
  validateDirErr : Option (List Char)
  launchErr : Option (List Char)
  loginErr : Option (List Char)
  navErr : Option (List Char)
  rawRows : List RawRow
  closePageErr : Option (List Char)
  closeBrowserErr : Option (List Char)
  cookies : List (List Char × List Char)
  outcomes : Nat → HttpOutcome
  saveErr : Option (List Char)

/-- The `browser.close()` half of `BrowserService.close`. -/
def closeBrowserPart (env : Env) (s : ScraperState) :
    Except (List Char) Unit × ScraperState :=
  if s.browserOpen then
    match env.closeBrowserErr with
    | some m => (Except.error m, s)
    | none => (Except.ok (), { s with browserOpen := false })
  else
    (Except.ok (), s)

/-- Embeds `BrowserService.close` (src/unnamed/part_002:901-918): close the page
when open, then the browser when open; an error is logged and rethrown. -/
def browserClose (env : Env) (s : ScraperState) :
    Except (List Char) Unit × ScraperState :=
  if s.pageOpen then
    match env.closePageErr with
    | some m => (Except.error m, s)
    | none => closeBrowserPart env { s with pageOpen := false }
  else
    closeBrowserPart env s

/-- Embeds `ScraperService.close` (src/services/scraperService.js:122-125):
`browserService.close()` then `isLoggedIn = false`; an error from the
browser close propagates before the flag is cleared. -/
def scraperClose (env : Env) (s : ScraperState) :
    Except (List Char) Unit × ScraperState :=
  match browserClose env s with
  | (Except.ok _, s1) => (Except.ok (), { s1 with isLoggedIn := false })
  | (Except.error m, s1) => (Except.error m, s1)

/-- Embeds `BrowserService.launch` followed by `createPage`
(`ScraperService.initialize`, src/services/scraperService.js:15-19). -/
def scraperInit (env : Env) (s : ScraperState) :
    Except (List Char) Unit × ScraperState :=
  match env.launchErr with
  | some m => (Except.error m, s)
  | none =>
    let s1 := { s with browserOpen := true }
    (Except.ok (), { s1 with pageOpen := true })

/-- Embeds `ScraperService.login` (src/services/scraperService.js:25-52): every
failure is wrapped into `Login failed: …`; success sets `isLoggedIn`. -/
def scraperLogin (env : Env) (s : ScraperState) :
    Except (List Char) Unit × ScraperState :=
  if ¬ s.pageOpen then
    (Except.error (chars "Login failed: Page not created. Call createPage() first."), s)
  else
    match env.loginErr with
    | some m => (Except.error (chars "Login failed: " ++ m), s)
    | none => (Except.ok (), { s with isLoggedIn := true })

/-- Embeds `ScraperService.scrapeChangelogEntries` (src/services/
scraperService.js:59-86): requires a login, navigates, runs the in-page
extraction (rows whose displayed date equals the target string) and
normalizes the rows. -/
def scrapeChangelogEntries (env : Env) (d : List Char) (s : ScraperState) :
    Except (List Char) (List Entry) × ScraperState :=
  if ¬ s.isLoggedIn then
    (Except.error (chars "Must be logged in before scraping. Call login() first."), s)
  else if ¬ s.pageOpen then
    (Except.error (chars "Page not created. Call createPage() first."), s)
  else
    match env.navErr with
    | some m => (Except.error m, s)
    | none =>
      (Except.ok (processEntries (env.rawRows.filter (fun r => r.date == d))), s)

/-- The try-block of `ScraperService.scrapeForDate`
(src/services/scraperService.js:224-227): initialize, login, scrape. -/
def scrapeForDateBody (env : Env) (d : List Char) (s : ScraperState) :
    Except (List Char) (List Entry) × ScraperState :=
  match scraperInit env s with
  | (Except.error m, s1) => (Except.error m, s1)
  | (Except.ok _, s1) =>
    match scraperLogin env s1 with
    | (Except.error m, s2) => (Except.error m, s2)
    | (Except.ok _, s2) => scrapeChangelogEntries env d s2

/-- Embeds `ScraperService.scrapeForDate` (src/services/scraperService.js:
222-234): the try-block above, and the session closed in a `finally`
whose own error replaces the body's outcome. -/
def scrapeForDate (env : Env) (d : List Char) (s : ScraperState) :
    Except (List Char) (List Entry) × ScraperState :=
  match scraperClose env (scrapeForDateBody env d s).2 with
  | (Except.ok _, s3) => ((scrapeForDateBody env d s).1, s3)
  | (Except.error m, s3) => (Except.error m, s3)

/-- Embeds `ScraperService.getCookies` (src/services/scraperService.js:92-103)
over `BrowserService.getCookies` (src/unnamed/part_002:865-876). -/
def scraperGetCookies (env : Env) (s : ScraperState) :
    Except (List Char) (List (List Char × List Char)) :=
  if ¬ s.isLoggedIn then
    Except.error (chars "Must be logged in to get cookies. Call login() first.")
  else if ¬ s.pageOpen then
    Except.error (chars "Page not created. Call createPage() first.")
  else
    Except.ok env.cookies

/-! ### Task orchestrator (src/services/scheduledTaskService.js) -/

structure TaskResult where
  date : List Char
  totalEntries : Nat
  successful : List Entry
  failed : List Entry
  stats : Option DLStats
  message : List Char
deriving DecidableEq, Repr

structure TaskState where
  isRunning : Bool
  cleanupTimeout : Option Nat
  scraper : ScraperState
  stats : DLStats
  fs : FS

structure Status where
  isRunning : Bool
  downloadStats : DLStats
  hasScheduledCleanup : Bool
deriving DecidableEq, Repr

/-- Embeds `config.timeouts.fileCleanup` (src/config/index.js:61): one hour. -/
def fileCleanupDelay : Nat := 3600000

def taskAlreadyRunningMessage : List Char :=
  chars "Task is already running. Please wait for it to complete."

def noEntriesMessage : List Char :=
  chars "No entries found for the specified date"

def completionMessage (n : Nat) : List Char :=
  chars "Task completed successfully. " ++ natChars n ++
    chars " files downloaded."

/-- Embeds `DownloadService.validateDownloadDirectory`
(src/unnamed/part_001:213-229). -/
def validateDownloadDirectory (env : Env) : Except (List Char) Unit :=
  match env.validateDirErr with
  | some m =>
    Except.error (chars "Download directory validation failed: " ++ m)
  | none => Except.ok ()

/-- Embeds `ScheduledTaskService._saveResults` (src/services/
scheduledTaskService.js:157-176): database and CSV writes happen only for
non-empty sets; a sink failure propagates. -/
def saveResults (env : Env) (succ failed : List Entry) :
    Except (List Char) Unit :=
  match env.saveErr with
  | some m => if succ.isEmpty && failed.isEmpty then Except.ok ()
      else Except.error m
  | none => Except.ok ()

/-- Embeds `ScheduledTaskService._cleanup` (src/services/scheduledTaskService.js:
236-248): clear a pending cleanup timer, close the scraper, and swallow
any teardown error into a logged warning. -/
def cleanupService (env : Env) (s : TaskState) : TaskState :=
  let s1 := { s with cleanupTimeout := none }
  match scraperClose env s1.scraper with
  | (Except.ok _, sc) => { s1 with scraper := sc }
  | (Except.error _, sc) => { s1 with scraper := sc }

/-- The try-block of `ScheduledTaskService.executeTask` (src/services/
scheduledTaskService.js:32-73): validate the download directory,
initialize and log in the scraper, scrape the target date (which closes
its own session in a `finally`), short-circuit on zero entries, read the
session cookies, download every entry, persist the results, and schedule
the delayed cleanup. -/
def executeTaskBody (env : Env) (d : List Char) (s : TaskState) :
    Except (List Char) TaskResult × TaskState :=
  match validateDownloadDirectory env with
  | Except.error m => (Except.error m, s)
  | Except.ok _ =>
    match scraperInit env s.scraper with
    | (Except.error m, sc) => (Except.error m, { s with scraper := sc })
    | (Except.ok _, sc) =>
      match scraperLogin env sc with
      | (Except.error m, sc1) => (Except.error m, { s with scraper := sc1 })
      | (Except.ok _, sc1) =>
        match scrapeForDate env d sc1 with
        | (Except.error m, sc2) => (Except.error m, { s with scraper := sc2 })
        | (Except.ok entries, sc2) =>
          if entries.isEmpty then
            (Except.ok
              { date := d
                totalEntries := 0
                successful := []
                failed := []
                stats := none
                message := noEntriesMessage },
              { s with scraper := sc2 })
          else
            match scraperGetCookies env sc2 with
            | Except.error m => (Except.error m, { s with scraper := sc2 })
            | Except.ok cookies =>
              let r := downloadFiles entries cookies env.outcomes s.fs
              let s1 := { s with scraper := sc2, fs := r.2.1, stats := r.2.2 }
              match saveResults env r.1.successful r.1.failed with
              | Except.error m => (Except.error m, s1)
              | Except.ok _ =>
                let s2 := { s1 with cleanupTimeout := some fileCleanupDelay }
                (Except.ok
                  { date := d
                    totalEntries := entries.length
                    successful := r.1.successful
                    failed := r.1.failed
                    stats := some r.2.2
                    message := completionMessage r.1.successful.length }, s2)

/-- Embeds `ScheduledTaskService.executeTask` (src/services/
scheduledTaskService.js:24-81): reject when a run is in flight, set the
running flag, run the body, and in a `finally` run `_cleanup` (cancelling
any pending cleanup timer and closing the scraper) and clear the flag. -/
def executeTask (env : Env) (d : List Char) (s : TaskState) :
    Except (List Char) TaskResult × TaskState :=
  if s.isRunning then
    (Except.error taskAlreadyRunningMessage, s)
  else
    let s0 := { s with isRunning := true }
    let r := executeTaskBody env d s0
    let s2 := cleanupService env r.2
    (r.1, { s2 with isRunning := false })

/-- Embeds `ScheduledTaskService.getStatus` (src/services/
scheduledTaskService.js:123-129). -/
def getStatus (s : TaskState) : Status :=
  { isRunning := s.isRunning, downloadStats := s.stats,
    hasScheduledCleanup := s.cleanupTimeout.isSome }

/-! ### Helper lemmas on the string machinery -/

theorem splitOnChar_ne_nil (c : Char) (l : List Char) :
    splitOnChar c l ≠ [] := by
  cases l with
  | nil => simp [splitOnChar]
  | cons a rest =>
    unfold splitOnChar
    by_cases h : a = c
    · simp [h]
    · simp only [if_neg h]
      split <;> simp

theorem splitOnChar_of_forall_ne {c : Char} :
    ∀ {l : List Char}, (∀ x ∈ l, x ≠ c) → splitOnChar c l = [l]
  | [], _ => rfl
  | a :: rest, h => by
    have ha : a ≠ c := h a (List.mem_cons_self a rest)
    have hrest : splitOnChar c rest = [rest] :=
      splitOnChar_of_forall_ne (fun x hx => h x (List.mem_cons_of_mem a hx))
    unfold splitOnChar
    simp [if_neg ha, hrest]

theorem splitOnChar_cons_eq (c : Char) (l : List Char) :
    splitOnChar c (c :: l) = [] :: splitOnChar c l := by
  conv_lhs => unfold splitOnChar
  simp

theorem splitOnChar_cons_ne {c a : Char} (h : a ≠ c) {l x : List Char}
    {t : List (List Char)} (hs : splitOnChar c l = x :: t) :
    splitOnChar c (a :: l) = (a :: x) :: t := by
  unfold splitOnChar
  simp [h, hs]

theorem splitOnChar_shape (c : Char) (l : List Char) :
    ∃ x t, splitOnChar c l = x :: t := by
  cases hs : splitOnChar c l with
  | nil => exact absurd hs (splitOnChar_ne_nil c l)
  | cons x t => exact ⟨x, t, rfl⟩

theorem splitOnChar_append (c : Char) :
    ∀ (l₁ l₂ : List Char),
      splitOnChar c (l₁ ++ c :: l₂) = splitOnChar c l₁ ++ splitOnChar c l₂
  | [], l₂ => by
    rw [List.nil_append, splitOnChar_cons_eq]
    rfl
  | a :: l₁, l₂ => by
    by_cases h : a = c
    · subst h
      rw [List.cons_append, splitOnChar_cons_eq, splitOnChar_append a l₁ l₂,
        splitOnChar_cons_eq, List.cons_append]
    · obtain ⟨x, t, hx⟩ := splitOnChar_shape c l₁
      have hx2 : splitOnChar c (l₁ ++ c :: l₂) = x :: (t ++ splitOnChar c l₂) := by
        rw [splitOnChar_append c l₁ l₂, hx, List.cons_append]
      rw [List.cons_append, splitOnChar_cons_ne h hx2,
        splitOnChar_cons_ne h hx, List.cons_append]

theorem lastPart_cons (x : List Char) {l : List (List Char)} (h : l ≠ []) :
    lastPart (x :: l) = lastPart l := by
  cases l with
  | nil => exact absurd rfl h
  | cons y rest => rfl

theorem lastPart_append :
    ∀ (l₁ : List (List Char)) {l₂ : List (List Char)}, l₂ ≠ [] →
      lastPart (l₁ ++ l₂) = lastPart l₂
  | [], _, _ => rfl
  | x :: l₁, l₂, h => by
    have h1 : l₁ ++ l₂ ≠ [] := by
      intro hc
      exact h (List.append_eq_nil.mp hc).2
    rw [List.cons_append, lastPart_cons x h1, lastPart_append l₁ h]

theorem removeFirstSub_of_not_contains {pat : List Char} :
    ∀ {l : List Char}, containsSub pat l = false → removeFirstSub pat l = l
  | [], _ => rfl
  | a :: rest, h => by
    unfold containsSub at h
    simp only [Bool.or_eq_false_iff] at h
    unfold removeFirstSub
    simp [h.1, removeFirstSub_of_not_contains h.2]

theorem takeWhile_ne_of_forall_ne {c : Char} {l : List Char}
    (h : ∀ x ∈ l, x ≠ c) : l.takeWhile (fun x => x ≠ c) = l := by
  induction l with
  | nil => rfl
  | cons a rest ih =>
    have ha : a ≠ c := h a (List.mem_cons_self a rest)
    simp [List.takeWhile_cons, ha]
    exact fun x hx => h x (List.mem_cons_of_mem a hx)

theorem stripLeadingSlash_eq_self {a : Char} {l : List Char} (ha : a ≠ '/') :
    stripLeadingSlash (a :: l) = a :: l := by
  unfold stripLeadingSlash
  split
  · rename_i rest heq
    injection heq with h1 h2
    exact absurd h1 ha
  · rfl

theorem stripTrailingSlash_eq_self {u : List Char}
    (hlast : ∀ b ∈ u.getLast?, b ≠ '/') :
    stripTrailingSlash u = u := by
  unfold stripTrailingSlash
  split
  · rename_i heq
    exact absurd rfl (hlast '/' (Option.mem_def.mpr heq))
  · rfl

theorem stripSlashes_eq_self {a : Char} {l : List Char} (ha : a ≠ '/')
    (hlast : ∀ b ∈ (a :: l).getLast?, b ≠ '/') :
    stripSlashes (a :: l) = a :: l := by
  unfold stripSlashes
  rw [stripLeadingSlash_eq_self ha, stripTrailingSlash_eq_self hlast]

/-! ### Helper lemmas on the version scanner -/

theorem versionMatchAt_shape {l m r : List Char}
    (h : versionMatchAt l = some (m, r)) :
    (∃ c rest, l = 'v' :: c :: rest ∧ c.isDigit = true) ∧
      ∃ tl, m = 'v' :: tl ∧ tl ≠ [] := by
  unfold versionMatchAt at h
  split at h
  · rename_i rest
    by_cases hd : (takeDigits rest).1 = []
    · rw [if_pos hd] at h
      exact absurd h (by simp)
    · rw [if_neg hd] at h
      have hm : m = 'v' :: ((takeDigits rest).1 ++ (dotGroups 3 (takeDigits rest).2).1) := by
        have := congrArg (fun o => o.map Prod.fst) h
        simpa using this.symm
      refine ⟨?_, (takeDigits rest).1 ++ (dotGroups 3 (takeDigits rest).2).1, hm, ?_⟩
      · cases rest with
        | nil => exact absurd rfl hd
        | cons c rest' =>
          refine ⟨c, rest', rfl, ?_⟩
          by_cases hc : c.isDigit
          · exact hc
          · refine absurd ?_ hd
            simp [takeDigits, List.takeWhile_cons, hc]
      · intro hnil
        exact hd (List.append_eq_nil.mp hnil).1
  · exact absurd h (by simp)

theorem findVersion_token {t : List Char} :
    ∀ {b m a : List Char}, findVersion t = some (b, m, a) →
      ∃ tl, m = 'v' :: tl ∧ tl ≠ [] := by
  induction t with
  | nil => intro b m a h; exact absurd h (by simp [findVersion])
  | cons x rest ih =>
    intro b m a h
    unfold findVersion at h
    cases hv : versionMatchAt (x :: rest) with
    | some p =>
      rw [hv] at h
      have hp : versionMatchAt (x :: rest) = some (p.1, p.2) := hv
      obtain ⟨-, tl, htl, hne⟩ := versionMatchAt_shape hp
      have hm : m = p.1 := by
        have := h
        simp only [Option.some.injEq] at this
        exact (congrArg (fun q => q.2.1) this).symm
      exact ⟨tl, hm ▸ htl, hne⟩
    | none =>
      rw [hv] at h
      simp only [Option.map_eq_some'] at h
      obtain ⟨q, hq, hfq⟩ := h
      have hm : m = q.2.1 := (congrArg (fun z => z.2.1) hfq).symm
      obtain ⟨tl, htl, hne⟩ := ih (b := q.1) (m := q.2.1) (a := q.2.2)
        (by rw [hq])
      exact ⟨tl, hm ▸ htl, hne⟩

/-- Does the title contain a `v` immediately followed by a digit (the
necessary and sufficient precondition for the source regex to match)? -/
def hasVDigitPair : List Char → Bool
  | [] => false
  | a :: rest =>
    ((a == 'v') && (match rest with
      | c :: _ => c.isDigit
      | [] => false)) || hasVDigitPair rest

theorem versionMatchAt_eq_none {l : List Char}
    (h : hasVDigitPair l = false) : versionMatchAt l = none := by
  cases hv : versionMatchAt l with
  | none => rfl
  | some p =>
    have hp : versionMatchAt l = some (p.1, p.2) := hv
    obtain ⟨⟨c, rest, hl, hc⟩, -⟩ := versionMatchAt_shape hp
    subst hl
    simp [hasVDigitPair, hc] at h

theorem hasVDigitPair_tail {a : Char} {rest : List Char}
    (h : hasVDigitPair (a :: rest) = false) : hasVDigitPair rest = false := by
  unfold hasVDigitPair at h
  exact (Bool.or_eq_false_iff.mp h).2

theorem findVersion_eq_none {t : List Char}
    (h : hasVDigitPair t = false) : findVersion t = none := by
  induction t with
  | nil => rfl
  | cons x rest ih =>
    unfold findVersion
    rw [versionMatchAt_eq_none h, ih (hasVDigitPair_tail h)]
    rfl

theorem extractVersion_of_no_pair {t : List Char}
    (h : hasVDigitPair t = false) :
    Utils.extractVersionFromTitle t = ⟨[], t, false⟩ := by
  unfold Utils.extractVersionFromTitle
  by_cases hd : t.any Char.isDigit
  · rw [if_pos hd, findVersion_eq_none h]
  · rw [if_neg hd]

theorem extractVersion_no_digit {t : List Char}
    (h : t.any Char.isDigit = false) :
    Utils.extractVersionFromTitle t = ⟨[], t, false⟩ := by
  unfold Utils.extractVersionFromTitle
  rw [h]
  simp

theorem extractVersion_version_ne_nil {t : List Char}
    (h : (Utils.extractVersionFromTitle t).hasVersion = true) :
    (Utils.extractVersionFromTitle t).version ≠ [] := by
  unfold Utils.extractVersionFromTitle at h ⊢
  by_cases hd : t.any Char.isDigit
  · rw [if_pos hd] at h ⊢
    cases hf : findVersion t with
    | none =>
      rw [hf] at h
      exact absurd h (by simp)
    | some p =>
      obtain ⟨tl, htl, hne⟩ :=
        findVersion_token (t := t) (b := p.1) (m := p.2.1) (a := p.2.2)
          (by rw [hf])
      show removeFirstChar 'v' p.2.1 ≠ []
      rw [htl]
      simpa [removeFirstChar] using hne
  · rw [if_neg hd] at h
    exact absurd h (by simp)

theorem processEntries_eq (rows : List RawRow) :
    processEntries rows =
      (rows.filter (fun r =>
        (Utils.extractVersionFromTitle r.productName).hasVersion)).map
        processRow := by
  induction rows with
  | nil => rfl
  | cons r rest ih =>
    unfold processEntries
    by_cases h : (Utils.extractVersionFromTitle r.productName).hasVersion
    · simp [h, List.filter_cons, ih]
    · simp [h, List.filter_cons, ih]

/-! ### Helper lemmas on the URL machinery -/

theorem getLast?_ne_slash {s : List Char} (h : ∀ x ∈ s, x ≠ '/') :
    ∀ b ∈ s.getLast?, b ≠ '/' := by
  intro b hb
  obtain ⟨hne, hbl⟩ := List.mem_getLast?_eq_getLast hb
  exact h b (hbl ▸ List.getLast_mem hne)

theorem slug_of_site {s : List Char} (hs : s ≠ []) (h : ∀ x ∈ s, x ≠ '/') :
    (Utils.extractUrlInfo (chars "https://site/" ++ s)).slug = s := by
  have hvalid : urlValid (chars "https://site/" ++ s) = true := rfl
  unfold Utils.extractUrlInfo
  rw [if_pos hvalid]
  show lastPart (splitOnChar '/' (stripSlashes (chars "https://site/" ++ s))) = s
  have hlast : ∀ b ∈ (chars "https://site/" ++ s).getLast?, b ≠ '/' := by
    intro b hb
    rw [List.getLast?_append_of_ne_nil _ hs] at hb
    exact getLast?_ne_slash h b hb
  have hstrip : stripSlashes (chars "https://site/" ++ s) =
      chars "https://site/" ++ s :=
    stripSlashes_eq_self (a := 'h') (l := chars "ttps://site/" ++ s)
      (by decide) hlast
  rw [hstrip]
  have happ : chars "https://site/" ++ s = chars "https://site" ++ '/' :: s := by
    rw [show chars "https://site/" = chars "https://site" ++ ['/'] from rfl,
      List.append_assoc]
    rfl
  rw [happ, splitOnChar_append, splitOnChar_of_forall_ne h,
    show splitOnChar '/' (chars "https://site") =
      [chars "https:", [], chars "site"] from rfl]
  rfl

theorem productId_of_site {v : List Char} (hamp : ∀ x ∈ v, x ≠ '&')
    (hhash : ∀ x ∈ v, x ≠ '#') :
    (Utils.extractUrlInfo (chars "https://site/x?product_id=" ++ v)).productId
      = v := by
  have hvalid : urlValid (chars "https://site/x?product_id=" ++ v) = true := rfl
  have hc1 : ∀ x ∈ chars "product_id=", x ≠ '#' := by decide
  have hc2 : ∀ x ∈ chars "product_id=", x ≠ '&' := by decide
  unfold Utils.extractUrlInfo
  rw [if_pos hvalid]
  show (getQueryParam (chars "product_id")
    (chars "https://site/x?product_id=" ++ v)).getD [] = v
  have hq : queryOf (chars "https://site/x?product_id=" ++ v) =
      chars "product_id=" ++ v := by
    unfold queryOf
    rw [show splitFirst '?' (chars "https://site/x?product_id=" ++ v) =
      some (chars "https://site/x", chars "product_id=" ++ v) from rfl]
    exact takeWhile_ne_of_forall_ne (fun x hx =>
      (List.mem_append.mp hx).elim (fun h1 => hc1 x h1) (fun h2 => hhash x h2))
  unfold getQueryParam
  rw [hq, splitOnChar_of_forall_ne (fun x hx =>
    (List.mem_append.mp hx).elim (fun h1 => hc2 x h1) (fun h2 => hamp x h2))]
  rfl

/-! ### Claims C5, C6, C7, C10 -/

/-- C5 counterexample: on the spec's own example URL the code returns a
slug that still carries the query string, because `extractUrlInfo` splits
the raw URL string, not the parsed path; the claim demands slug
`slug-download`. -/
theorem spec_C5_counterexample :
    (Utils.extractUrlInfo
      (chars "https://site/slug-download?product_id=42")).slug =
        chars "slug-download?product_id=42"
    ∧ chars "slug-download?product_id=42" ≠ chars "slug-download" := by
  decide

/-- C5 (amended): the slug is the last `/`-separated segment of the raw
URL string after stripping one leading and one trailing slash — so any
query string stays inside the slug; for query-free URLs this coincides
with the last path segment; `productId` is read from the `product_id`
query parameter; a URL the parser rejects yields empty slug and id
without raising. -/
theorem spec_C5_amended :
    (Utils.extractUrlInfo (chars "https://site/slug-download?product_id=42") =
      ⟨chars "slug-download?product_id=42", chars "42"⟩)
    ∧ (Utils.extractUrlInfo (chars "") = ⟨[], []⟩)
    ∧ (Utils.extractUrlInfo (chars "not a url") = ⟨[], []⟩)
    ∧ (∀ s : List Char, s ≠ [] → (∀ x ∈ s, x ≠ '/') → (∀ x ∈ s, x ≠ '?') →
        (Utils.extractUrlInfo (chars "https://site/" ++ s)).slug = s)
    ∧ (∀ s q : List Char, (∀ x ∈ s, x ≠ '/') → (∀ x ∈ q, x ≠ '/') →
        (Utils.extractUrlInfo
          (chars "https://site/" ++ (s ++ '?' :: q))).slug = s ++ '?' :: q)
    ∧ (∀ v : List Char, (∀ x ∈ v, x ≠ '&') → (∀ x ∈ v, x ≠ '#') →
        (Utils.extractUrlInfo
          (chars "https://site/x?product_id=" ++ v)).productId = v) := by
  refine ⟨by decide, by decide, by decide, ?_, ?_, ?_⟩
  · exact fun s hs h _ => slug_of_site hs h
  · intro s q hs hq
    have hne : s ++ '?' :: q ≠ [] := by simp
    have hall : ∀ x ∈ s ++ '?' :: q, x ≠ '/' := by
      intro x hx
      rcases List.mem_append.mp hx with h1 | h2
      · exact hs x h1
      · rcases List.mem_cons.mp h2 with h3 | h4
        · subst h3; decide
        · exact hq x h4
    exact slug_of_site hne hall
  · exact fun v hamp hhash => productId_of_site hamp hhash

/-- C5 witness: the amended theorem applied at a plain segment and at a
concrete `product_id` value. -/
theorem spec_C5_witness :
    (chars "abc" ≠ [] ∧ (∀ x ∈ chars "abc", x ≠ '/') ∧
      (∀ x ∈ chars "abc", x ≠ '?'))
    ∧ (Utils.extractUrlInfo (chars "https://site/" ++ chars "abc")).slug =
        chars "abc"
    ∧ (Utils.extractUrlInfo
        (chars "https://site/x?product_id=" ++ chars "42")).productId =
        chars "42" := by
  refine ⟨⟨by decide, by decide, by decide⟩, ?_, ?_⟩
  · exact spec_C5_amended.2.2.2.1 (chars "abc") (by decide) (by decide)
      (by decide)
  · exact spec_C5_amended.2.2.2.2.2 (chars "42") (by decide) (by decide)

/-- C6 counterexample: the title `v2.3.1 Plugin` contains the version
token at position 0, so the clean-title replacement pattern (which
requires a leading space) does not fire: the code returns the title
unchanged, while the claim demands the token (and separating space)
removed, i.e. `Plugin` or ` Plugin`. -/
theorem spec_C6_counterexample :
    Utils.extractVersionFromTitle (chars "v2.3.1 Plugin") =
      ⟨chars "2.3.1", chars "v2.3.1 Plugin", true⟩
    ∧ chars "v2.3.1 Plugin" ≠ chars "Plugin"
    ∧ chars "v2.3.1 Plugin" ≠ chars " Plugin" := by
  decide

/-- C6 (amended): the version is the numeric portion of the leftmost
`v\d+(\.\d+){0,3}` match and is never empty when a match exists; the
clean name is the title with the leftmost space-preceded token removed,
so a title whose only token is not preceded by a space is returned
unchanged (`Plugin X v2.3.1` still yields name `Plugin X`); a title with
no digit has `hasVersion = false`; normalization keeps exactly the rows
whose title parsed a version. -/
theorem spec_C6_amended :
    (Utils.extractVersionFromTitle (chars "Plugin X v2.3.1") =
      ⟨chars "2.3.1", chars "Plugin X", true⟩)
    ∧ (∀ t : List Char, t.any Char.isDigit = false →
        Utils.extractVersionFromTitle t = ⟨[], t, false⟩)
    ∧ (∀ t : List Char, (Utils.extractVersionFromTitle t).hasVersion = true →
        (Utils.extractVersionFromTitle t).version ≠ [])
    ∧ (∀ rows : List RawRow, processEntries rows =
        (rows.filter (fun r =>
          (Utils.extractVersionFromTitle r.productName).hasVersion)).map
          processRow) := by
  refine ⟨by decide, ?_, ?_, processEntries_eq⟩
  · exact fun t h => extractVersion_no_digit h
  · exact fun t h => extractVersion_version_ne_nil h

/-- C6 witness: the amended theorem applied at a digit-free title, at a
versioned title, and at a one-row list. -/
theorem spec_C6_witness :
    ((chars "NoDigits").any Char.isDigit = false
      ∧ Utils.extractVersionFromTitle (chars "NoDigits") =
          ⟨[], chars "NoDigits", false⟩)
    ∧ ((Utils.extractVersionFromTitle (chars "A v2")).hasVersion = true
      ∧ (Utils.extractVersionFromTitle (chars "A v2")).version ≠ [])
    ∧ processEntries [⟨chars "1", chars "A v2", chars "d", chars "dl",
        chars "u"⟩] =
      (([⟨chars "1", chars "A v2", chars "d", chars "dl", chars "u"⟩] :
        List RawRow).filter (fun r =>
          (Utils.extractVersionFromTitle r.productName).hasVersion)).map
        processRow := by
  refine ⟨⟨by decide, ?_⟩, ⟨by decide, ?_⟩, ?_⟩
  · exact spec_C6_amended.2.1 (chars "NoDigits") (by decide)
  · exact spec_C6_amended.2.2.1 (chars "A v2") (by decide)
  · exact spec_C6_amended.2.2.2 [⟨chars "1", chars "A v2", chars "d",
      chars "dl", chars "u"⟩]

/-- C7 counterexample: the second replacement of `generateFilename` is not
anchored, so a `download-` occurring in the middle of the slug is removed
as well; the claim demands `x-download-y.zip` for slug `x-download-y`. -/
theorem spec_C7_counterexample :
    Utils.generateFilename (chars "x-download-y") = chars "x-y.zip"
    ∧ chars "x-y.zip" ≠ chars "x-download-y.zip" := by
  decide

/-- C7 (amended): the filename is the slug with a trailing `-download`
suffix stripped, then the first occurrence of `download-` anywhere in the
remainder removed (not only a leading prefix), with `.zip` appended; a
slug containing neither pattern is unchanged. -/
theorem spec_C7_amended :
    (Utils.generateFilename (chars "slug-download") = chars "slug.zip")
    ∧ (Utils.generateFilename (chars "download-slug") = chars "slug.zip")
    ∧ (Utils.generateFilename (chars "x-download-y") = chars "x-y.zip")
    ∧ (∀ slug : List Char, containsSub (chars "download-") slug = false →
        (chars "-download").isSuffixOf slug = false →
        Utils.generateFilename slug = slug ++ chars ".zip") := by
  refine ⟨by decide, by decide, by decide, ?_⟩
  intro slug hsub hsuf
  unfold Utils.generateFilename
  unfold stripTrailing
  rw [if_neg (by simp [hsuf]), removeFirstSub_of_not_contains hsub]

/-- C7 witness: the amended theorem applied at a slug containing neither
pattern. -/
theorem spec_C7_witness :
    containsSub (chars "download-") (chars "plain") = false
    ∧ (chars "-download").isSuffixOf (chars "plain") = false
    ∧ Utils.generateFilename (chars "plain") = chars "plain" ++ chars ".zip" :=
  ⟨by decide, by decide,
    spec_C7_amended.2.2.2 (chars "plain") (by decide) (by decide)⟩

/-- C10: a title that contains a digit but no `v` immediately followed by
a digit (such as `Plugin 2024 Edition`) yields the default result —
`hasVersion = false`, empty version, unchanged clean title — and
normalization drops such rows exactly as it drops digit-free titles:
`_processEntries` keeps precisely the rows whose title parsed a
version. -/
theorem spec_C10 :
    (∀ t : List Char, t.any Char.isDigit = true → hasVDigitPair t = false →
      Utils.extractVersionFromTitle t = ⟨[], t, false⟩)
    ∧ (Utils.extractVersionFromTitle (chars "Plugin 2024 Edition") =
        ⟨[], chars "Plugin 2024 Edition", false⟩)
    ∧ (∀ rows : List RawRow, processEntries rows =
        (rows.filter (fun r =>
          (Utils.extractVersionFromTitle r.productName).hasVersion)).map
          processRow) :=
  ⟨fun _ _ h => extractVersion_of_no_pair h, by decide, processEntries_eq⟩

/-- C10 witness: the theorem applied at the digit-bearing, token-free
title `Plugin 2024 Edition`. -/
theorem spec_C10_witness :
    ((chars "Plugin 2024 Edition").any Char.isDigit = true
      ∧ hasVDigitPair (chars "Plugin 2024 Edition") = false)
    ∧ Utils.extractVersionFromTitle (chars "Plugin 2024 Edition") =
        ⟨[], chars "Plugin 2024 Edition", false⟩ :=
  ⟨⟨by decide, by decide⟩,
    spec_C10.1 (chars "Plugin 2024 Edition") (by decide) (by decide)⟩

/-! ### Helper lemmas on the download service -/

theorem wrapFail_ne_nil (e : Entry) (m : List Char) : wrapFail e m ≠ [] := by
  unfold wrapFail
  intro hc
  have h1 := List.append_eq_nil.mp hc
  have h2 := List.append_eq_nil.mp h1.1
  have h3 := List.append_eq_nil.mp h2.1
  exact absurd h3.1 (by decide)

theorem downloadFetch_ok_core {e : Entry} {o : HttpOutcome} {n : Nat}
    {fs1 : FS} {d : Entry} {fs' : FS}
    (h : downloadFetch e o n fs1 = (Except.ok d, fs')) : d.core = e.core := by
  cases o with
  | netErr m =>
    simp only [downloadFetch] at h
    exact absurd h (by simp)
  | resp st b =>
    simp only [downloadFetch] at h
    split at h
    · simp at h
    · split at h
      · simp at h
      · split at h
        · simp at h
        · injection h with h1 h2
          injection h1 with h3
          rw [← h3]
          rfl

theorem downloadBody_ok_core {e : Entry} {o : HttpOutcome} {n : Nat}
    {fs : FS} {d : Entry} {fs' : FS}
    (h : downloadBody e o n fs = (Except.ok d, fs')) : d.core = e.core := by
  unfold downloadBody at h
  split at h
  · simp at h
  · exact downloadFetch_ok_core h

theorem downloadBody_resp_fail {e : Entry} {st b n : Nat} {fs : FS}
    (hf : st ≠ 200 ∨ b = 0) {d : Entry} {fs' : FS} :
    downloadBody e (HttpOutcome.resp st b) n fs ≠ (Except.ok d, fs') := by
  intro h
  unfold downloadBody at h
  split at h
  · simp at h
  · simp only [downloadFetch] at h
    split at h
    · simp at h
    · split at h
      · simp at h
      · split at h
        · simp at h
        · rcases hf with hf | hf <;> omega

theorem downloadOne_ok_core {e : Entry} {o : HttpOutcome} {n : Nat}
    {fs : FS} {d : Entry} {fs' : FS}
    (h : downloadOne e o n fs = (Except.ok d, fs')) : d.core = e.core := by
  unfold downloadOne at h
  split at h
  · rename_i d0 fs1 heq
    simp only [Prod.mk.injEq, Except.ok.injEq] at h
    rw [← h.1]
    exact downloadBody_ok_core heq
  · simp at h

theorem downloadOne_resp_fail (e : Entry) (st b n : Nat) (fs : FS)
    (hf : st ≠ 200 ∨ b = 0) :
    ∃ m, (downloadOne e (HttpOutcome.resp st b) n fs).1 = Except.error m := by
  unfold downloadOne
  split
  · rename_i d fs1 heq
    exact absurd heq (downloadBody_resp_fail hf)
  · exact ⟨_, rfl⟩

theorem downloadOne_error_path {e : Entry} {o : HttpOutcome} {n : Nat}
    {fs : FS} {m : List Char}
    (h : (downloadOne e o n fs).1 = Except.error m) :
    (downloadOne e o n fs).2 e.targetPath = none ∧ m ≠ [] := by
  unfold downloadOne at h ⊢
  split at h
  · simp at h
  · rename_i m0 fs1 heq
    simp only [Except.error.injEq] at h
    constructor
    · show (match fs1 e.targetPath with
        | none => fs1
        | some _ => fs1.erase e.targetPath) e.targetPath = none
      cases hfs : fs1 e.targetPath with
      | none => exact hfs
      | some v => simp [FS.erase]
    · rw [← h]
      exact wrapFail_ne_nil e m0

theorem downloadGo_length (o : Nat → HttpOutcome) :
    ∀ (es : List Entry) (i : Nat) (fs : FS),
      ((downloadGo o i es fs).1).length + ((downloadGo o i es fs).2.1).length
        = es.length := by
  intro es
  induction es with
  | nil => intro i fs; simp [downloadGo]
  | cons e rest ih =>
    intro i fs
    unfold downloadGo
    cases hd : downloadOne e (o i) i fs with
    | mk r fs1 =>
      cases r with
      | ok d =>
        show (d :: (downloadGo o (i + 1) rest fs1).1).length +
          ((downloadGo o (i + 1) rest fs1).2.1).length = rest.length + 1
        have := ih (i + 1) fs1
        simp only [List.length_cons]
        omega
      | error m =>
        show ((downloadGo o (i + 1) rest fs1).1).length +
          ({ e with error := m } ::
            (downloadGo o (i + 1) rest fs1).2.1).length = rest.length + 1
        have := ih (i + 1) fs1
        simp only [List.length_cons]
        omega

theorem downloadGo_perm (o : Nat → HttpOutcome) :
    ∀ (es : List Entry) (i : Nat) (fs : FS),
      List.Perm
        (((downloadGo o i es fs).1).map Entry.core ++
          ((downloadGo o i es fs).2.1).map Entry.core)
        (es.map Entry.core) := by
  intro es
  induction es with
  | nil => intro i fs; simp [downloadGo]
  | cons e rest ih =>
    intro i fs
    unfold downloadGo
    cases hd : downloadOne e (o i) i fs with
    | mk r fs1 =>
      cases r with
      | ok d =>
        have hcore : d.core = e.core := downloadOne_ok_core hd
        show List.Perm
          ((d :: (downloadGo o (i + 1) rest fs1).1).map Entry.core ++
            ((downloadGo o (i + 1) rest fs1).2.1).map Entry.core)
          ((e :: rest).map Entry.core)
        simp only [List.map_cons, List.cons_append, hcore]
        exact (ih (i + 1) fs1).cons e.core
      | error m =>
        show List.Perm
          (((downloadGo o (i + 1) rest fs1).1).map Entry.core ++
            ({ e with error := m } ::
              (downloadGo o (i + 1) rest fs1).2.1).map Entry.core)
          ((e :: rest).map Entry.core)
        have hcore : ({ e with error := m } : Entry).core = e.core := rfl
        simp only [List.map_cons, hcore]
        exact List.perm_middle.trans ((ih (i + 1) fs1).cons e.core)

theorem downloadGo_failed_error (o : Nat → HttpOutcome) :
    ∀ (es : List Entry) (i : Nat) (fs : FS) (f : Entry),
      f ∈ (downloadGo o i es fs).2.1 → f.error ≠ [] := by
  intro es
  induction es with
  | nil =>
    intro i fs f hf
    simp [downloadGo] at hf
  | cons e rest ih =>
    intro i fs f hf
    unfold downloadGo at hf
    split at hf
    · rename_i d fs1 heq
      exact ih (i + 1) fs1 f hf
    · rename_i m fs1 heq
      rcases List.mem_cons.mp hf with h1 | h2
      · subst h1
        have hm : (downloadOne e (o i) i fs).1 = Except.error m := by
          rw [heq]
        exact (downloadOne_error_path hm).2
      · exact ih (i + 1) fs1 f h2

theorem downloadGo_fail_mem (o : Nat → HttpOutcome) :
    ∀ (es : List Entry) (k : Nat) (fs : FS) (i : Nat) (h : i < es.length)
      (st b : Nat), o (k + i) = HttpOutcome.resp st b → st ≠ 200 ∨ b = 0 →
      (es.get ⟨i, h⟩).core ∈ ((downloadGo o k es fs).2.1).map Entry.core := by
  intro es
  induction es with
  | nil =>
    intro k fs i h
    exact absurd h (by simp)
  | cons e rest ih =>
    intro k fs i h st b ho hf
    cases i with
    | zero =>
      simp only [Nat.add_zero] at ho
      obtain ⟨m, hm⟩ := downloadOne_resp_fail e st b k fs hf
      rw [← ho] at hm
      unfold downloadGo
      split
      · rename_i d fs1 heq
        rw [heq] at hm
        simp at hm
      · rename_i m0 fs1 heq
        exact List.mem_cons_self _ _
    | succ j =>
      have h' : j < rest.length := Nat.lt_of_succ_lt_succ h
      have ho' : o ((k + 1) + j) = HttpOutcome.resp st b := by
        rw [show (k + 1) + j = k + (j + 1) from by omega]
        exact ho
      unfold downloadGo
      split
      · rename_i d fs1 heq
        exact ih (k + 1) fs1 j h' st b ho' hf
      · rename_i m0 fs1 heq
        exact List.mem_cons_of_mem _ (ih (k + 1) fs1 j h' st b ho' hf)

/-! ### Helper lemmas on the session and the orchestrator -/

theorem closeBrowserPart_ok {env : Env} {s s1 : ScraperState} {u : Unit}
    (h : closeBrowserPart env s = (Except.ok u, s1)) :
    s1.browserOpen = false ∧ s1.pageOpen = s.pageOpen ∧
      s1.isLoggedIn = s.isLoggedIn := by
  unfold closeBrowserPart at h
  split at h
  · rename_i hopen
    split at h
    · simp at h
    · injection h with h1 h2
      rw [← h2]
      exact ⟨rfl, rfl, rfl⟩
  · rename_i hopen
    injection h with h1 h2
    rw [← h2]
    refine ⟨?_, rfl, rfl⟩
    simpa using hopen

theorem browserClose_ok {env : Env} {s s1 : ScraperState} {u : Unit}
    (h : browserClose env s = (Except.ok u, s1)) :
    s1.browserOpen = false ∧ s1.pageOpen = false := by
  unfold browserClose at h
  split at h
  · rename_i hopen
    split at h
    · simp at h
    · have hc := closeBrowserPart_ok h
      exact ⟨hc.1, hc.2.1⟩
  · rename_i hopen
    have hc := closeBrowserPart_ok h
    refine ⟨hc.1, ?_⟩
    rw [hc.2.1]
    simpa using hopen

theorem scraperClose_ok {env : Env} {s s' : ScraperState} {u : Unit}
    (h : scraperClose env s = (Except.ok u, s')) :
    s' = ScraperState.closed := by
  unfold scraperClose at h
  split at h
  · rename_i v s1 heq
    injection h with h1 h2
    have hb := browserClose_ok heq
    rw [← h2]
    cases s1 with
    | mk bo po li =>
      simp only [ScraperState.closed]
      simp at hb
      simp [hb.1, hb.2]
  · simp at h

theorem scrapeForDate_ok {env : Env} {d : List Char} {s : ScraperState}
    {entries : List Entry} {s' : ScraperState}
    (h : scrapeForDate env d s = (Except.ok entries, s')) :
    entries = processEntries (env.rawRows.filter (fun r => r.date == d))
    ∧ s' = ScraperState.closed := by
  unfold scrapeForDate at h
  split at h
  · rename_i v s3 heq
    injection h with h1 h2
    refine ⟨?_, h2 ▸ scraperClose_ok heq⟩
    unfold scrapeForDateBody at h1
    split at h1
    · simp at h1
    · split at h1
      · simp at h1
      · rename_i s2 u1 s1' u2 s2'
        unfold scrapeChangelogEntries at h1
        split at h1
        · simp at h1
        · split at h1
          · simp at h1
          · split at h1
            · simp at h1
            · simp only at h1
              injection h1 with h3
              exact h3.symm
  · simp at h

theorem scraperGetCookies_closed (env : Env) :
    ∀ {c}, scraperGetCookies env ScraperState.closed ≠ Except.ok c := by
  intro c h
  unfold scraperGetCookies at h
  simp [ScraperState.closed] at h

theorem executeTaskBody_ok_shape {env : Env} {d : List Char} {s : TaskState}
    {r : TaskResult} {s1 : TaskState}
    (h : executeTaskBody env d s = (Except.ok r, s1)) :
    r = { date := d, totalEntries := 0, successful := [], failed := [],
          stats := none, message := noEntriesMessage }
    ∧ processEntries (env.rawRows.filter (fun row => row.date == d)) = [] := by
  unfold executeTaskBody at h
  split at h
  · simp at h
  · split at h
    · simp at h
    · split at h
      · simp at h
      · split at h
        · simp at h
        · rename_i entries sc2 hscrape
          obtain ⟨hent, hclosed⟩ := scrapeForDate_ok hscrape
          split at h
          · rename_i hempty
            injection h with h1 h2
            injection h1 with h3
            constructor
            · exact h3.symm
            · rw [← hent]
              exact List.isEmpty_iff.mp hempty
          · split at h
            · simp at h
            · rename_i cookies hcook
              rw [hclosed] at hcook
              exact absurd hcook (scraperGetCookies_closed env)

theorem executeTask_ok {env : Env} {d : List Char} {s : TaskState}
    {r : TaskResult} {s' : TaskState}
    (h : executeTask env d s = (Except.ok r, s')) :
    executeTaskBody env d { s with isRunning := true } =
      (Except.ok r, (executeTaskBody env d { s with isRunning := true }).2) := by
  unfold executeTask at h
  split at h
  · simp at h
  · injection h with h1 h2
    exact Prod.ext h1 rfl

theorem cleanupService_timeout (env : Env) (s : TaskState) :
    (cleanupService env s).cleanupTimeout = none := by
  unfold cleanupService
  dsimp only
  split <;> rfl

/-! ### Concrete fixtures for witnesses and counterexamples -/

def witnessEnv : Env :=
  { validateDirErr := none, launchErr := none, loginErr := none,
    navErr := none, rawRows := [], closePageErr := none,
    closeBrowserErr := none, cookies := [],
    outcomes := fun _ => HttpOutcome.resp 200 1, saveErr := none }

def teardownFailEnv : Env := { witnessEnv with closePageErr := some (chars "boom") }

def idleState : TaskState :=
  { isRunning := false, cleanupTimeout := none,
    scraper := ScraperState.closed, stats := ⟨0, 0, 0⟩,
    fs := fun _ => none }

def busyState : TaskState := { idleState with isRunning := true }

def entryA : Entry :=
  { id := chars "1", productName := chars "A", date := chars "d",
    downloadLink := chars "dl", productURL := chars "u",
    version := chars "1", name := chars "A", slug := chars "a",
    productId := chars "7", filename := [], filePath := [], fileUrl := [],
    fileSize := 0, downloadedAt := 0, error := [] }

def entryB : Entry := { entryA with id := chars "2", slug := chars "b" }

def mixedOutcomes : Nat → HttpOutcome :=
  fun i => if i = 0 then HttpOutcome.resp 200 5 else HttpOutcome.resp 404 0

def taskNoEntries : TaskResult :=
  { date := chars "d", totalEntries := 0, successful := [], failed := [],
    stats := none, message := noEntriesMessage }

/-! ### Claims C1, C2, C3, C4, C8, C9 -/

/-- C1: the download phase classifies every retained entry into exactly one
of `successful` and `failed` — the lengths add up to the batch length, and
the identifying fields of the two result lists are a permutation of the
input batch; whenever `executeTask` resolves normally, the returned
result satisfies `successful.length + failed.length = totalEntries` and
`totalEntries` equals the number of entries retained by normalization for
the target date. -/
theorem spec_C1 :
    (∀ (entries : List Entry) (cookies : List (List Char × List Char))
        (outcomes : Nat → HttpOutcome) (fs : FS),
      (((downloadFiles entries cookies outcomes fs).1.successful).length +
        ((downloadFiles entries cookies outcomes fs).1.failed).length =
          entries.length)
      ∧ List.Perm
          (((downloadFiles entries cookies outcomes fs).1.successful).map
              Entry.core ++
            ((downloadFiles entries cookies outcomes fs).1.failed).map
              Entry.core)
          (entries.map Entry.core))
    ∧ (∀ (env : Env) (d : List Char) (s : TaskState) (r : TaskResult)
        (s' : TaskState), executeTask env d s = (Except.ok r, s') →
          r.successful.length + r.failed.length = r.totalEntries
          ∧ r.totalEntries = (processEntries (env.rawRows.filter
              (fun row => row.date == d))).length) := by
  constructor
  · intro entries cookies outcomes fs
    constructor
    · simpa [downloadFiles] using downloadGo_length outcomes entries 0
        (fs.touch (pathJoin downloadsDir (chars "index.html")))
    · simpa [downloadFiles] using downloadGo_perm outcomes entries 0
        (fs.touch (pathJoin downloadsDir (chars "index.html")))
  · intro env d s r s' h
    obtain ⟨hr, hemp⟩ := executeTaskBody_ok_shape (executeTask_ok h)
    subst hr
    refine ⟨rfl, ?_⟩
    rw [hemp]
    rfl

/-- C1 witness: the partition at a concrete two-entry batch with one
success and one failure, and the `executeTask` invariant at a concrete
run that resolves normally. -/
theorem spec_C1_witness :
    ((downloadFiles [entryA, entryB] [] mixedOutcomes
        (fun _ => none)).1.successful.length +
      (downloadFiles [entryA, entryB] [] mixedOutcomes
        (fun _ => none)).1.failed.length =
      ([entryA, entryB] : List Entry).length)
    ∧ (taskNoEntries.successful.length + taskNoEntries.failed.length =
        taskNoEntries.totalEntries
      ∧ taskNoEntries.totalEntries = (processEntries
          (witnessEnv.rawRows.filter
            (fun row => row.date == chars "d"))).length) :=
  ⟨(spec_C1.1 [entryA, entryB] [] mixedOutcomes (fun _ => none)).1,
    spec_C1.2 witnessEnv (chars "d") idleState taskNoEntries
      ((executeTask witnessEnv (chars "d") idleState).2) rfl⟩

/-- C2: while a run is in flight, a second `executeTask` call fails
immediately with the `TaskAlreadyRunning` message and leaves the whole
service state untouched (so the first run's result is unaffected); a call
that does start always ends with the running flag cleared, on success and
failure paths alike. -/
theorem spec_C2 :
    ∀ (env : Env) (d : List Char) (s : TaskState),
      (s.isRunning = true →
        executeTask env d s = (Except.error taskAlreadyRunningMessage, s))
      ∧ (s.isRunning = false →
        ((executeTask env d s).2).isRunning = false) := by
  intro env d s
  constructor
  · intro h
    unfold executeTask
    rw [if_pos h]
  · intro h
    unfold executeTask
    rw [if_neg (by simp [h])]

/-- C2 witness: the rejection at a concrete busy state and the cleared
flag after a concrete idle-state run. -/
theorem spec_C2_witness :
    busyState.isRunning = true
    ∧ executeTask witnessEnv (chars "d") busyState =
        (Except.error taskAlreadyRunningMessage, busyState)
    ∧ idleState.isRunning = false
    ∧ ((executeTask witnessEnv (chars "d") idleState).2).isRunning = false :=
  ⟨rfl, (spec_C2 witnessEnv (chars "d") busyState).1 rfl, rfl,
    (spec_C2 witnessEnv (chars "d") idleState).2 rfl⟩

/-- C3: a download attempt that receives a non-200 status or writes zero
bytes makes `_downloadSingleFile` fail with a non-empty error message and
leaves no file at the entry's target path; inside `downloadFiles` every
entry is still classified (lengths add up), the failing entry lands in
the `failed` list, and every failed entry carries a non-empty error
string. -/
theorem spec_C3 :
    (∀ (e : Entry) (st b now : Nat) (fs : FS), st ≠ 200 ∨ b = 0 →
      ∃ m, (downloadOne e (HttpOutcome.resp st b) now fs).1 = Except.error m
        ∧ m ≠ []
        ∧ (downloadOne e (HttpOutcome.resp st b) now fs).2 e.targetPath =
            none)
    ∧ (∀ (entries : List Entry) (cookies : List (List Char × List Char))
        (outcomes : Nat → HttpOutcome) (fs : FS),
        ((((downloadFiles entries cookies outcomes fs).1.successful).length +
          (((downloadFiles entries cookies outcomes fs).1.failed)).length =
            entries.length)
        ∧ (∀ (i : Nat) (h : i < entries.length) (st b : Nat),
            outcomes i = HttpOutcome.resp st b → st ≠ 200 ∨ b = 0 →
            (entries.get ⟨i, h⟩).core ∈
              (((downloadFiles entries cookies outcomes fs).1.failed)).map
                Entry.core)
        ∧ (∀ f ∈ (downloadFiles entries cookies outcomes fs).1.failed,
            f.error ≠ []))) := by
  constructor
  · intro e st b now fs hf
    obtain ⟨m, hm⟩ := downloadOne_resp_fail e st b now fs hf
    obtain ⟨hpath, hne⟩ := downloadOne_error_path hm
    exact ⟨m, hm, hne, hpath⟩
  · intro entries cookies outcomes fs
    refine ⟨?_, ?_, ?_⟩
    · simpa [downloadFiles] using downloadGo_length outcomes entries 0
        (fs.touch (pathJoin downloadsDir (chars "index.html")))
    · intro i h st b ho hfail
      have ho' : outcomes (0 + i) = HttpOutcome.resp st b := by
        rw [Nat.zero_add]
        exact ho
      simpa [downloadFiles] using downloadGo_fail_mem outcomes entries 0
        (fs.touch (pathJoin downloadsDir (chars "index.html"))) i h st b
        ho' hfail
    · intro f hf
      refine downloadGo_failed_error outcomes entries 0
        (fs.touch (pathJoin downloadsDir (chars "index.html"))) f ?_
      simpa [downloadFiles] using hf

/-- C3 witness: a concrete 404/zero-byte attempt fails, removes the file,
and the entry ends in the failed list of a concrete batch. -/
theorem spec_C3_witness :
    ((404 : Nat) ≠ 200 ∨ (0 : Nat) = 0)
    ∧ (∃ m, (downloadOne entryA (HttpOutcome.resp 404 0) 0
          (fun _ => none)).1 = Except.error m
        ∧ m ≠ []
        ∧ (downloadOne entryA (HttpOutcome.resp 404 0) 0
            (fun _ => none)).2 entryA.targetPath = none) :=
  ⟨by decide,
    spec_C3.1 entryA 404 0 0 (fun _ => none) (by decide)⟩

/-- C4: when zero entries remain after extraction and normalization for
the target date (and the session steps themselves succeed), `executeTask`
returns — it does not throw — a result with `totalEntries = 0`, empty
`successful` and `failed` arrays and the `No entries found for the
specified date` message. -/
theorem spec_C4 :
    ∀ (env : Env) (d : List Char) (s : TaskState),
      s.isRunning = false → env.validateDirErr = none →
      env.launchErr = none → env.loginErr = none → env.navErr = none →
      env.closePageErr = none → env.closeBrowserErr = none →
      processEntries (env.rawRows.filter (fun row => row.date == d)) = [] →
      (executeTask env d s).1 = Except.ok
        { date := d, totalEntries := 0, successful := [], failed := [],
          stats := none, message := noEntriesMessage } := by
  intro env d s hrun hv hl hlog hnav hcp hcb hemp
  obtain ⟨vd, le, lo, na, rows, cp, cb, ck, oc, se⟩ := env
  simp only at hv hl hlog hnav hcp hcb hemp
  subst hv hl hlog hnav hcp hcb
  unfold executeTask
  rw [if_neg (by simp [hrun])]
  show (executeTaskBody _ d { s with isRunning := true }).1 = _
  simp [executeTaskBody, validateDownloadDirectory, scraperInit,
    scraperLogin, scrapeForDate, scrapeForDateBody, scrapeChangelogEntries,
    scraperClose, browserClose, closeBrowserPart, hemp]

/-- C4 witness: the theorem applied at a concrete environment with no
matching rows. -/
theorem spec_C4_witness :
    (idleState.isRunning = false
      ∧ processEntries (witnessEnv.rawRows.filter
          (fun row => row.date == chars "d")) = [])
    ∧ (executeTask witnessEnv (chars "d") idleState).1 = Except.ok
        { date := chars "d", totalEntries := 0, successful := [],
          failed := [], stats := none, message := noEntriesMessage } :=
  ⟨⟨rfl, rfl⟩,
    spec_C4 witnessEnv (chars "d") idleState rfl rfl rfl rfl rfl rfl rfl rfl⟩

/-- C8: contrary to the claim, no cleanup is pending when `executeTask`
returns: the `finally` block's `_cleanup` cancels the timer that
`_scheduleCleanup` just created, so `getStatus` reports
`hasScheduledCleanup = false` after every completed call; moreover no run
that downloaded entries ever completes normally — every `Except.ok`
result of `executeTask` is the zero-entry short-circuit (the cookie read
after `scrapeForDate` has closed its own session throws first). -/
theorem spec_C8_bug :
    (∀ (env : Env) (d : List Char) (s : TaskState), s.isRunning = false →
      (getStatus (executeTask env d s).2).hasScheduledCleanup = false)
    ∧ (∀ (env : Env) (d : List Char) (s : TaskState) (r : TaskResult)
        (s' : TaskState), executeTask env d s = (Except.ok r, s') →
          r.successful = [] ∧ r.totalEntries = 0) := by
  constructor
  · intro env d s h
    unfold executeTask
    rw [if_neg (by simp [h])]
    show ((cleanupService env
      (executeTaskBody env d { s with isRunning := true }).2).cleanupTimeout).isSome
        = false
    rw [cleanupService_timeout]
    rfl
  · intro env d s r s' h
    obtain ⟨hr, -⟩ := executeTaskBody_ok_shape (executeTask_ok h)
    subst hr
    exact ⟨rfl, rfl⟩

/-- C8 witness: after a concrete run that returns successfully,
`getStatus` reports no scheduled cleanup, and the returned result is the
zero-entry one. -/
theorem spec_C8_witness :
    idleState.isRunning = false
    ∧ (getStatus (executeTask witnessEnv (chars "d") idleState).2).hasScheduledCleanup
        = false
    ∧ (taskNoEntries.successful = [] ∧ taskNoEntries.totalEntries = 0) :=
  ⟨rfl, spec_C8_bug.1 witnessEnv (chars "d") idleState rfl,
    spec_C8_bug.2 witnessEnv (chars "d") idleState taskNoEntries
      ((executeTask witnessEnv (chars "d") idleState).2) rfl⟩

/-- C9 counterexample: with an open page whose teardown fails, the
session-level `close()` propagates the error to its caller (and leaves
the session un-closed) instead of swallowing it into a warning — the
swallowing happens only in the orchestrator's `_cleanup` wrapper. -/
theorem spec_C9_counterexample :
    scraperClose teardownFailEnv ⟨true, true, true⟩ =
      (Except.error (chars "boom"), ⟨true, true, true⟩) := rfl

/-- C9 (amended): closing an already-closed session is always a safe
no-op, and any close that succeeds leaves the session exactly in the
closed state, so repeated calls are safe; but a teardown error is
re-thrown by `close()` itself — only the orchestrator's `_cleanup`
swallows teardown errors (it always completes and clears the pending
cleanup timer). -/
theorem spec_C9_amended :
    (∀ env : Env, scraperClose env ScraperState.closed =
      (Except.ok (), ScraperState.closed))
    ∧ (∀ (env : Env) (s s' : ScraperState) (u : Unit),
        scraperClose env s = (Except.ok u, s') →
          s' = ScraperState.closed
          ∧ scraperClose env s' = (Except.ok (), ScraperState.closed))
    ∧ (∀ (env : Env) (s : TaskState),
        (cleanupService env s).cleanupTimeout = none) := by
  refine ⟨fun env => rfl, ?_, fun env s => cleanupService_timeout env s⟩
  intro env s s' u h
  have hc := scraperClose_ok h
  subst hc
  exact ⟨rfl, rfl⟩

/-- C9 witness: a concrete successful close from a fully open session
reaches the closed state, and closing again is a no-op. -/
theorem spec_C9_witness :
    scraperClose witnessEnv ⟨true, true, true⟩ =
      (Except.ok (), ScraperState.closed)
    ∧ (ScraperState.closed = ScraperState.closed
      ∧ scraperClose witnessEnv ScraperState.closed =
          (Except.ok (), ScraperState.closed)) :=
  ⟨rfl, spec_C9_amended.2.1 witnessEnv ⟨true, true, true⟩
    ScraperState.closed () rfl⟩

end WP
